import Mathlib

/-
Verification of the template-resolution and parallel-validation engine of the
ServiceCloudVoice health-check Lambda.

The definitions below are a shallow embedding of:
  healthCheck/utils/placeholder_utils.py   (placeholder resolver)
  healthCheck/core/multithreading.py       (parallel validation orchestrator)
  healthCheck/core/reporting.py            (report aggregator and CSV renderer)

Strings are processed as lists of characters.  The two regular expressions of
placeholder_utils.py, PLACEHOLDER_RE and CONDITIONAL_RE, are embedded as
left-to-right scanners with an explicit fuel argument (fuel is set to the
length of the input, which is always sufficient because every step consumes at
least one character); a fueled scanner reduces definitionally, which keeps all
concrete evaluations kernel-checkable.

Python braces inside string literals are written with hex escapes.
-/

namespace HealthCheck

/-- Substitution context: the Python replacements dict, a partial map from
placeholder names to replacement strings. -/
def Ctx := String → Option String

/-- External stream-discovery collaborator used by fix_custom_resource_outputs:
given a Connect instance id and an optional region, returns none when the call
raises, or the pair of optional discovered stream ARNs
(ctr_stream_arn, contact_lens_stream_arn). -/
def Disc := String → Option String → Option (Option String × Option String)

/-- Python ASCII whitespace class as used by the regex escape for spaces. -/
def isSpaceChar (c : Char) : Bool :=
  c = ' ' || c = '\t' || c = '\n' || c = '\x0d' || c = '\x0b' || c = '\x0c'

/-- Split a character list at the first closing brace, returning the part
before it and the part after it; none when no closing brace occurs. -/
def breakOnBrace : List Char → Option (List Char × List Char)
  | [] => none
  | c :: rest =>
    if c = '\x7d' then some ([], rest)
    else
      match breakOnBrace rest with
      | some (pre, post) => some (c :: pre, post)
      | none => none

/-- One left-to-right pass of PLACEHOLDER_RE.sub: a token is a dollar sign, an
opening brace, one or more non-brace characters, and a closing brace; a token
whose name is found in the context is replaced by the context value, any other
token is left verbatim, and scanning resumes after each match. -/
def substFuel (ctx : Ctx) : Nat → List Char → List Char
  | 0, cs => cs
  | Nat.succ _, [] => []
  | Nat.succ f, '$' :: '\x7b' :: rest =>
    (match breakOnBrace rest with
     | some (name, after) =>
       if name.isEmpty then '$' :: substFuel ctx f ('\x7b' :: rest)
       else
         (match ctx (String.mk name) with
          | some v => v.toList
          | none => '$' :: '\x7b' :: (name ++ ['\x7d'])) ++ substFuel ctx f after
     | none => '$' :: substFuel ctx f ('\x7b' :: rest))
  | Nat.succ f, c :: rest => c :: substFuel ctx f rest

/-- PLACEHOLDER_RE.sub on a string, embedding the core substitution step of
replace_placeholders_in_string. -/
def substPlaceholdersIn (ctx : Ctx) (s : String) : String :=
  String.mk (substFuel ctx s.toList.length s.toList)

/-- Whether a placeholder token matches at the head of the character list. -/
def tokAtHead : List Char → Bool
  | '$' :: '\x7b' :: rest =>
    (match breakOnBrace rest with
     | some (name, _) => !name.isEmpty
     | none => false)
  | _ => false

/-- PLACEHOLDER_RE.search: whether any placeholder token occurs in the list. -/
def hasTok : List Char → Bool
  | [] => false
  | c :: rest => tokAtHead (c :: rest) || hasTok rest

/-- PLACEHOLDER_RE.search on a string. -/
def hasTokStr (s : String) : Bool := hasTok s.toList

/-- Whether the first list is an initial segment of the second. -/
def startsList : List Char → List Char → Bool
  | [], _ => true
  | _ :: _, [] => false
  | p :: ps, c :: cs => p = c && startsList ps cs

/-- Whether the first list occurs contiguously inside the second. -/
def occursIn (pat : List Char) : List Char → Bool
  | [] => pat.isEmpty
  | c :: rest => startsList pat (c :: rest) || occursIn pat rest

/-- Python substring containment test, needle inside hay. -/
def containsStr (hay needle : String) : Bool := occursIn needle.toList hay.toList

/-- Python str.replace: replace every non-overlapping occurrence of pat by rep,
scanning left to right. -/
def replaceAllFuel (pat rep : List Char) : Nat → List Char → List Char
  | 0, cs => cs
  | Nat.succ _, [] => []
  | Nat.succ f, c :: rest =>
    if startsList pat (c :: rest) then
      rep ++ replaceAllFuel pat rep f ((c :: rest).drop pat.length)
    else c :: replaceAllFuel pat rep f rest

/-- Python str.replace on strings. -/
def replaceAllStr (s pat rep : String) : String :=
  String.mk (replaceAllFuel pat.toList rep.toList s.toList.length s.toList)

/-- Python s.startswith(pre). -/
def startsWithStr (s pre : String) : Bool := startsList pre.toList s.toList

/-- The truthiness-based lookup replacements.get("LambdaPrefix") or
replacements.get("lambdaPrefix") used by resolve_conditional_options:
the capitalized variant wins unless it is missing or empty. -/
def pfxCapFirst (ctx : Ctx) : Option String :=
  match ctx "LambdaPrefix" with
  | some v => if v = "" then ctx "lambdaPrefix" else some v
  | none => ctx "lambdaPrefix"

/-- The truthiness-based lookup replacements.get("lambdaPrefix") or
replacements.get("LambdaPrefix") used by clean_duplicate_prefixes,
fix_multiorg_role_references and fix_custom_resource_outputs. -/
def pfxLowFirst (ctx : Ctx) : Option String :=
  match ctx "lambdaPrefix" with
  | some v => if v = "" then ctx "LambdaPrefix" else some v
  | none => ctx "LambdaPrefix"

/-- The guard "lambda_prefix and lambda_prefix not in [sentinels]": the value
is usable only when present and not an unset sentinel. -/
def validPfx : Option String → Option String
  | some v =>
    if v = "" || v = "LambdaPrefix" || v = "lambdaPrefix" then none else some v
  | none => none

/-- IAM role ARN built from partition, account id, and the role name of one
role_mappings entry of fix_multiorg_role_references. -/
def roleArn (partitionVal accountId roleName : String) : String :=
  "arn:" ++ partitionVal ++ ":iam::" ++ accountId ++ ":role/" ++ roleName

/-- fix_multiorg_role_references: when a usable lambda prefix exists, rewrite
each CloudFormation role reference of the fixed mapping table to its actual
deployed role ARN, applying the replacements in the mapping's order. -/
def fixMultiorgRoleReferences (ctx : Ctx) (text : String) : String :=
  match validPfx (pfxLowFirst ctx) with
  | none => text
  | some p =>
    let partitionVal := (ctx "AWS::Partition").getD "aws"
    let accountId := (ctx "AWS::AccountId").getD "$\x7bAWS::AccountId\x7d"
    let arn := fun (roleName : String) =>
      roleArn partitionVal accountId (p ++ "-" ++ roleName)
    let roleMappings : List (String × String) :=
      [ ("MultiorgMigrationRole.Arn", arn "MultiorgMigrationRole"),
        ("MultiorgInvokeTelephonyIntegrationApiFunctionRoleResource.Arn",
          arn "InvokeTelephonyIntegrationApiFunctionRole"),
        ("MultiorgContactDataSyncFunctionRoleResource.Arn",
          arn "ContactDataSyncFunctionRole"),
        ("MultiorgPostCallAnalysisTriggerFunctionRoleResource.Arn",
          arn "PostCallAnalysisTriggerFunctionRole"),
        ("MultiorgInvokeSalesforceRestApiFunctionRoleResource.Arn",
          arn "InvokeSalesforceRestApiFunctionRole"),
        ("MultiorgKvsTranscriberRoleResource.Arn", arn "KvsTranscriberRole"),
        ("MultiorgKvsConsumerTriggerRoleResource.Arn", arn "KvsConsumerTriggerRole"),
        ("MultiorgContactLensConsumerFunctionRoleResource.Arn",
          arn "ContactLensConsumerFunctionRole"),
        ("MultiorgVoiceMailAudioProcessingRoleResource.Arn",
          arn "VoiceMailAudioProcessingRole"),
        ("MultiorgVoiceMailPackagingRoleResource.Arn", arn "VoiceMailPackagingRole"),
        ("MultiorgVoiceMailTranscribeRoleResource.Arn", arn "VoiceMailTranscribeRole"),
        ("MultiorgHandleContactEventsRoleResource.Arn", arn "HandleContactEventsRole"),
        ("MultiorgStreamDiscoveryFunctionRoleResource.Arn",
          arn "StreamDiscoveryFunctionRole"),
        ("S3SecretCacheTTLRole.Arn", arn "S3SecretCacheTTLRole") ]
    roleMappings.foldl (fun t kv => replaceAllStr t kv.1 kv.2) text

/-- First custom-resource output key of fix_custom_resource_outputs. -/
def ctrStreamKey : String := "MultiorgStreamDiscoveryCustomResource.CTRStreamArn"

/-- Second custom-resource output key of fix_custom_resource_outputs. -/
def contactLensStreamKey : String :=
  "MultiorgStreamDiscoveryCustomResource.ContactLensStreamArn"

/-- fix_custom_resource_outputs: when a usable lambda prefix exists, resolve
the two stream-discovery custom-resource references.  Discovery is consulted
only when the text mentions one of the two keys and a usable Connect instance
id is present; discovered non-empty ARNs are used first, and pattern-based
fallback ARNs fill in any key discovery did not produce, preserving the
Python dict's insertion order for the replacements. -/
def fixCustomResourceOutputs (disc : Disc) (ctx : Ctx) (text : String) : String :=
  match validPfx (pfxLowFirst ctx) with
  | none => text
  | some p =>
    let partitionVal := (ctx "AWS::Partition").getD "aws"
    let accountId := (ctx "AWS::AccountId").getD "$\x7bAWS::AccountId\x7d"
    let region := (ctx "AWS::Region").getD "$\x7bAWS::Region\x7d"
    let instanceId := ctx "ConnectInstanceId"
    let instanceOk :=
      match instanceId with
      | some i => i != "" && i != "ConnectInstanceId"
      | none => false
    let trigger :=
      (containsStr text ctrStreamKey || containsStr text contactLensStreamKey)
        && instanceOk
    let discovered : List (String × String) :=
      if trigger then
        match disc (instanceId.getD "")
            (if region = "$\x7bAWS::Region\x7d" then none else some region) with
        | some (ctr, cl) =>
          (match ctr with
           | some a => if a = "" then [] else [(ctrStreamKey, a)]
           | none => []) ++
          (match cl with
           | some a => if a = "" then [] else [(contactLensStreamKey, a)]
           | none => [])
        | none => []
      else []
    let streamArn := fun (streamName : String) =>
      "arn:" ++ partitionVal ++ ":kinesis:" ++ region ++ ":" ++ accountId
        ++ ":stream/" ++ p ++ "-" ++ streamName
    let customMappings :=
      discovered ++
      (if (discovered.lookup ctrStreamKey).isSome then []
       else [(ctrStreamKey, streamArn "CTRStream")]) ++
      (if (discovered.lookup contactLensStreamKey).isSome then []
       else [(contactLensStreamKey, streamArn "ContactLensStream")])
    customMappings.foldl (fun t kv => replaceAllStr t kv.1 kv.2) text

/-- clean_duplicate_prefixes: when a usable lambda prefix exists, collapse a
duplicated prefix "p-p-" to a single "p-". -/
def cleanDuplicatePrefixes (ctx : Ctx) (text : String) : String :=
  match validPfx (pfxLowFirst ctx) with
  | none => text
  | some p => replaceAllStr text (p ++ "-" ++ p ++ "-") (p ++ "-")

/-- replace_placeholders_in_string: fix CloudFormation role references, fix
custom-resource outputs, substitute simple placeholder tokens, then clean up
duplicate prefixes. -/
def replacePlaceholdersInString (disc : Disc) (ctx : Ctx) (text : String) : String :=
  cleanDuplicatePrefixes ctx
    (substPlaceholdersIn ctx
      (fixCustomResourceOutputs disc ctx
        (fixMultiorgRoleReferences ctx text)))

/-- resolve_conditional_options: choose between the two options of a
conditional token, with priority for an option carrying the LambdaPrefix or
lambdaPrefix token when a usable prefix value exists, then preferring a fully
resolved option that does not begin with a dash, then the dash guard and the
priority-token tie-breaks, with option1's resolution as the final fallback. -/
def resolveConditionalOptions (disc : Disc) (ctx : Ctx)
    (option1 option2 : String) : String :=
  let has1 := containsStr option1 "$\x7bLambdaPrefix\x7d"
    || containsStr option1 "$\x7blambdaPrefix\x7d"
  let has2 := containsStr option2 "$\x7bLambdaPrefix\x7d"
    || containsStr option2 "$\x7blambdaPrefix\x7d"
  let pfxOk := (validPfx (pfxCapFirst ctx)).isSome
  if has1 && pfxOk then replacePlaceholdersInString disc ctx option1
  else if has2 && pfxOk then replacePlaceholdersInString disc ctx option2
  else
    let r1 := replacePlaceholdersInString disc ctx option1
    if !hasTokStr r1 && !(startsWithStr r1 "-") then r1
    else
      let r2 := replacePlaceholdersInString disc ctx option2
      if !hasTokStr r2 && !(startsWithStr r2 "-") then r2
      else if !(startsWithStr r1 "-") && !(startsWithStr r2 "-") then
        if has1 then r1
        else if has2 then r2
        else r1
      else if !(startsWithStr r1 "-") then r1
      else if !(startsWithStr r2 "-") then r2
      else r1

/-- Whether the character may belong to a conditional option: anything except
the separator bar and whitespace. -/
def isOptChar (c : Char) : Bool := !(c = '|' || isSpaceChar c)

/-- Attempt to match CONDITIONAL_RE at the head of the list: a maximal
non-empty run of option characters, a bar, and a second maximal non-empty run;
on success returns both options and the remaining characters. -/
def condMatchAtHead (cs : List Char) : Option (List Char × List Char × List Char) :=
  let a := cs.takeWhile isOptChar
  if a.isEmpty then none
  else
    match cs.drop a.length with
    | '|' :: rest2 =>
      let b := rest2.takeWhile isOptChar
      if b.isEmpty then none
      else some (a, b, rest2.drop b.length)
    | _ => none

/-- One left-to-right pass of CONDITIONAL_RE.sub: each matched
"option1|option2" substring is replaced by the result of
resolve_conditional_options (the match's two bar-free parts are exactly the
two components produced by splitting the match at the bar), and scanning
resumes after the match. -/
def condScanFuel (disc : Disc) (ctx : Ctx) : Nat → List Char → List Char
  | 0, cs => cs
  | Nat.succ _, [] => []
  | Nat.succ f, c :: rest =>
    match condMatchAtHead (c :: rest) with
    | some (a, b, remaining) =>
      (resolveConditionalOptions disc ctx (String.mk a) (String.mk b)).toList
        ++ condScanFuel disc ctx f remaining
    | none => c :: condScanFuel disc ctx f rest

/-- resolve_conditional_placeholder: replace every conditional token in the
string. -/
def resolveConditionalPlaceholder (disc : Disc) (ctx : Ctx) (s : String) : String :=
  String.mk (condScanFuel disc ctx s.toList.length s.toList)

/-- The string branch of replace_placeholders: conditional tokens first, then
the simple-placeholder pipeline. -/
def resolveStr (disc : Disc) (ctx : Ctx) (s : String) : String :=
  replacePlaceholdersInString disc ctx (resolveConditionalPlaceholder disc ctx s)

mutual
/-- Template document node: object, sequence, string, or opaque scalar
(number, boolean, null), mirroring the Python values replace_placeholders
traverses. -/
inductive Node where
  | strVal : String → Node
  | intVal : Int → Node
  | boolVal : Bool → Node
  | nullVal : Node
  | arr : NodeList → Node
  | obj : NodeFields → Node

/-- Sequence of template document nodes. -/
inductive NodeList where
  | nil : NodeList
  | cons : Node → NodeList → NodeList

/-- Ordered key-to-node fields of a template document object. -/
inductive NodeFields where
  | nil : NodeFields
  | cons : String → Node → NodeFields → NodeFields
end

mutual
/-- replace_placeholders: rebuild objects over the same keys with resolved
values, rebuild lists elementwise in order, resolve strings through the
conditional-then-simple pipeline, and return any other scalar unchanged. -/
def replacePlaceholders (disc : Disc) (ctx : Ctx) : Node → Node
  | .obj fields => .obj (replacePlaceholdersFields disc ctx fields)
  | .arr elems => .arr (replacePlaceholdersList disc ctx elems)
  | .strVal s => .strVal (resolveStr disc ctx s)
  | .intVal n => .intVal n
  | .boolVal b => .boolVal b
  | .nullVal => .nullVal

/-- Elementwise replace_placeholders over a node sequence. -/
def replacePlaceholdersList (disc : Disc) (ctx : Ctx) : NodeList → NodeList
  | .nil => .nil
  | .cons n rest =>
    .cons (replacePlaceholders disc ctx n) (replacePlaceholdersList disc ctx rest)

/-- Valuewise replace_placeholders over object fields, keys untouched. -/
def replacePlaceholdersFields (disc : Disc) (ctx : Ctx) : NodeFields → NodeFields
  | .nil => .nil
  | .cons k v rest =>
    .cons k (replacePlaceholders disc ctx v) (replacePlaceholdersFields disc ctx rest)
end

mutual
/-- Structural skeleton of a node: every string leaf is blanked, every key,
container shape, and non-string scalar is kept.  Two nodes have equal shapes
exactly when they agree on object keys and order, sequence lengths and order,
and all non-string scalar values. -/
def shapeNode : Node → Node
  | .strVal _ => .strVal ""
  | .intVal n => .intVal n
  | .boolVal b => .boolVal b
  | .nullVal => .nullVal
  | .arr elems => .arr (shapeList elems)
  | .obj fields => .obj (shapeFields fields)

/-- Structural skeleton of a node sequence. -/
def shapeList : NodeList → NodeList
  | .nil => .nil
  | .cons n rest => .cons (shapeNode n) (shapeList rest)

/-- Structural skeleton of object fields. -/
def shapeFields : NodeFields → NodeFields
  | .nil => .nil
  | .cons k v rest => .cons k (shapeNode v) (shapeFields rest)
end

/-- One detailed health-check item of a resource-type report; each field is
optional because the Python dicts are read with .get defaults. -/
structure HealthCheckItem where
  resourceName : Option String
  status : Option Int
  message : Option String
deriving DecidableEq

/-- One per-resource-type validation report
\x7b ResourceType, DetailedHealthCheck \x7d. -/
structure ResourceTypeReport where
  resourceType : Option String
  detailedHealthCheck : List HealthCheckItem
deriving DecidableEq

/-- Outcome of invoking one validation task: its report, or the message of
the exception it raised. -/
def TaskResult := Except String ResourceTypeReport

/-- One loop iteration of validate_all_resources_parallel over a completed
future: on success append the task's report and one error entry per non-200
detail item; on exception append the error message and a synthesized failed
report. -/
def orchestratorStep (acc : List ResourceTypeReport × List String)
    (task : String × TaskResult) : List ResourceTypeReport × List String :=
  match task.2 with
  | Except.ok result =>
    (acc.1 ++ [result],
     acc.2 ++ (result.detailedHealthCheck.filter
         (fun hc => hc.status != some 200)).map
       (fun hc =>
         hc.resourceName.getD "Unknown" ++ ": " ++ hc.message.getD "Unknown error"))
  | Except.error e =>
    let errMsg := "Failed to validate " ++ task.1 ++ ": " ++ e
    (acc.1 ++
       [{ resourceType := some ("Failed " ++ task.1),
          detailedHealthCheck :=
            [{ resourceName := some task.1, status := some 500,
               message := some errMsg }] }],
     acc.2 ++ [errMsg])

/-- validate_all_resources_parallel: process every task outcome, in the
completion order given by the task list, accumulating the full report list
and the flat error list. -/
def validateAllResourcesParallel (tasks : List (String × TaskResult)) :
    List ResourceTypeReport × List String :=
  tasks.foldl orchestratorStep ([], [])

/-- Parsed health-check input parameters echoed into the report. -/
structure HealthCheckInput where
  ccVersion : String
  ccName : String
  sku : String
  executionId : String
  connectInstanceArn : String
  region : String
  maxThreads : Int
deriving DecidableEq

/-- Summary block of the enhanced report. -/
structure Summary where
  overallStatus : String
  totalResources : Nat
  healthy : Nat
  unhealthy : Nat
  warnings : Nat
  errorCount : Nat
deriving DecidableEq

/-- The enhanced report produced by generate_enhanced_report; executionTimeMs
is present exactly when debug logging is enabled. -/
structure EnhancedReport where
  executionId : String
  timestamp : String
  version : String
  executionTimeMs : Option Int
  inputParameters : HealthCheckInput
  summary : Summary
  detailedResults : List ResourceTypeReport
  errors : List String
deriving DecidableEq

/-- The per-item classification step of generate_enhanced_report: read the
item's status with default 500, then increment the healthy bucket when it
equals 200, the unhealthy bucket when it is at least 400, and the warning
bucket otherwise.  The accumulator components are
(total, healthy, unhealthy, warning). -/
def classifyStep (acc : Nat × Nat × Nat × Nat) (hc : HealthCheckItem) :
    Nat × Nat × Nat × Nat :=
  let status := hc.status.getD 500
  if status = 200 then (acc.1, acc.2.1 + 1, acc.2.2.1, acc.2.2.2)
  else if status ≥ 400 then (acc.1, acc.2.1, acc.2.2.1 + 1, acc.2.2.2)
  else (acc.1, acc.2.1, acc.2.2.1, acc.2.2.2 + 1)

/-- The per-report step of generate_enhanced_report's summary loop: add the
report's item count to the total, then classify every item. -/
def reportCountStep (acc : Nat × Nat × Nat × Nat) (report : ResourceTypeReport) :
    Nat × Nat × Nat × Nat :=
  report.detailedHealthCheck.foldl classifyStep
    (acc.1 + report.detailedHealthCheck.length, acc.2.1, acc.2.2.1, acc.2.2.2)

/-- The summary-statistics loop of generate_enhanced_report over all
reports. -/
def summaryCounts (fullReport : List ResourceTypeReport) : Nat × Nat × Nat × Nat :=
  fullReport.foldl reportCountStep (0, 0, 0, 0)

/-- generate_enhanced_report: summary statistics, overall status, metadata
(the wall-clock timestamp and the debug flag enter as explicit arguments
because the Python reads them from the clock and the logging configuration),
echoed input parameters, detailed results, and the error list. -/
def generateEnhancedReport (healthInput : HealthCheckInput)
    (fullReport : List ResourceTypeReport) (executionId : String)
    (executionTimeMs : Int) (errors : List String)
    (nowTimestamp : String) (debugEnabled : Bool) : EnhancedReport :=
  let c := summaryCounts fullReport
  let overallStatus :=
    if c.2.2.1 > 0 then "UNHEALTHY"
    else if c.2.2.2 > 0 ∨ errors ≠ [] then "WARNING"
    else "HEALTHY"
  { executionId := executionId
    timestamp := nowTimestamp
    version := "refactored_v1.0"
    executionTimeMs := if debugEnabled then some executionTimeMs else none
    inputParameters := healthInput
    summary :=
      { overallStatus := overallStatus
        totalResources := c.1
        healthy := c.2.1
        unhealthy := c.2.2.1
        warnings := c.2.2.2
        errorCount := errors.length }
    detailedResults := fullReport
    errors := errors }

/-- One CSV data row of generate_csv_report: double-quote wrap the four
fields; the name and type default to "Unknown", the status column is HEALTHY
exactly for status 200, and the message defaults to the empty string and has
its double quotes doubled. -/
def csvRow (resourceType : Option String) (hc : HealthCheckItem) : String :=
  let name := hc.resourceName.getD "Unknown"
  let rt := resourceType.getD "Unknown"
  let status := if hc.status == some 200 then "HEALTHY" else "UNHEALTHY"
  let message := replaceAllStr (hc.message.getD "") "\"" "\"\""
  "\"" ++ name ++ "\",\"" ++ rt ++ "\",\"" ++ status ++ "\",\"" ++ message ++ "\""

/-- generate_csv_report: the header line followed by one row per detail item,
accumulated in the nested loop order of the Python, joined by newlines. -/
def generateCsvReport (report : EnhancedReport) : String :=
  let lines :=
    report.detailedResults.foldl
      (fun lines rtr =>
        rtr.detailedHealthCheck.foldl
          (fun lines hc => lines ++ [csvRow rtr.resourceType hc])
          lines)
      ["ResourceName,ResourceType,Status,Message"]
  String.intercalate "\n" lines

/-
Concrete fixtures used by witnesses, counterexamples, and the concrete parts
of the claims.
-/

/-- Discovery collaborator that always raises. -/
def discNone : Disc := fun _ _ => none

/-- Discovery collaborator returning a first CTR stream ARN. -/
def discA : Disc := fun _ _ => some (some "ARN1", none)

/-- Discovery collaborator returning a different CTR stream ARN. -/
def discB : Disc := fun _ _ => some (some "ARN2", none)

/-- Context of spec property P3: call-center name and a usable prefix. -/
def ctxBoth : Ctx := fun n =>
  if n = "CallCenterApiName" then some "mycc"
  else if n = "LambdaPrefix" then some "myorg" else none

/-- Context of spec property P3 with the prefix absent. -/
def ctxNoPfx : Ctx := fun n =>
  if n = "CallCenterApiName" then some "mycc" else none

/-- Context of spec property P3 with the prefix empty. -/
def ctxEmptyPfx : Ctx := fun n =>
  if n = "CallCenterApiName" then some "mycc"
  else if n = "LambdaPrefix" then some "" else none

/-- The empty context. -/
def ctxNone : Ctx := fun _ => none

/-- Context of spec property P2. -/
def ctxHello : Ctx := fun n => if n = "name" then some "World" else none

/-- Context with only a usable prefix value. -/
def ctxPfxOnly : Ctx := fun n => if n = "LambdaPrefix" then some "p" else none

/-- Context with a usable prefix and Connect instance id, enabling the
stream-discovery path of fix_custom_resource_outputs. -/
def ctxDiscovery : Ctx := fun n =>
  if n = "lambdaPrefix" then some "p"
  else if n = "ConnectInstanceId" then some "i" else none

/-- A fixed parsed input used by concrete report instances. -/
def hiFixture : HealthCheckInput :=
  { ccVersion := "1", ccName := "cc", sku := "resell", executionId := "e",
    connectInstanceArn := "arn", region := "us-west-2", maxThreads := 10 }

/-- A healthy single-item report of a completed task. -/
def okReport : ResourceTypeReport :=
  { resourceType := some "Lambda Function",
    detailedHealthCheck :=
      [{ resourceName := some "F1", status := some 200, message := some "ok" }] }

/-
Spec-side descriptions, written from the claims' wording, to be compared
with the embedded orchestrator.
-/

/-- Spec-side description from claims C1 and C2: the single report entry one
task contributes: its own report on success, and on exception the synthesized
placeholder report with ResourceType "Failed name" and one detail item with
status 500 and the "Failed to validate name: error" message. -/
def specReportOfTask : String × TaskResult → ResourceTypeReport
  | (_, Except.ok r) => r
  | (name, Except.error e) =>
    { resourceType := some ("Failed " ++ name),
      detailedHealthCheck :=
        [{ resourceName := some name, status := some 500,
           message := some ("Failed to validate " ++ name ++ ": " ++ e) }] }

/-- Spec-side description from claim C2: the error-list entries one task
contributes: exactly one "Failed to validate name: error" entry for a raising
task, and one "ResourceName: message" entry per detail item whose status is
not 200 for a completed task (the Python .get defaults fill missing
fields). -/
def specErrorsOfTask : String × TaskResult → List String
  | (name, Except.error e) => ["Failed to validate " ++ name ++ ": " ++ e]
  | (_, Except.ok r) =>
    (r.detailedHealthCheck.filter (fun hc => hc.status != some 200)).map
      (fun hc =>
        hc.resourceName.getD "Unknown" ++ ": " ++ hc.message.getD "Unknown error")

/-- The orchestrator fold, from any accumulator, appends exactly the per-task
report entries and the per-task error entries. -/
theorem validateAll_foldl (tasks : List (String × TaskResult)) :
    ∀ acc : List ResourceTypeReport × List String,
      tasks.foldl orchestratorStep acc =
        (acc.1 ++ tasks.map specReportOfTask,
         acc.2 ++ tasks.flatMap specErrorsOfTask) := by
  induction tasks with
  | nil => intro acc; simp
  | cons t rest ih =>
    intro acc
    rw [List.foldl_cons, ih]
    obtain ⟨name, res⟩ := t
    cases res <;>
      simp [orchestratorStep, specReportOfTask, specErrorsOfTask, List.append_assoc]

/-- C1: for every task registry (each task either returning a report or
raising), the report list returned by validate_all_resources_parallel has
exactly the registry's length, because each registered task contributes
exactly one entry: its own report on success, or the synthesized failure
report on exception. -/
theorem claimC1 (tasks : List (String × TaskResult)) :
    (validateAllResourcesParallel tasks).1 = tasks.map specReportOfTask ∧
    (validateAllResourcesParallel tasks).1.length = tasks.length := by
  unfold validateAllResourcesParallel
  rw [validateAll_foldl tasks ([], [])]
  simp

/-- C2: the orchestrator's error list is exactly the concatenation, in task
completion order, of one "Failed to validate name: error" entry per raising
task and one "ResourceName: message" entry per non-200 detail item of each
completed task; the raising task's synthesized report has ResourceType
"Failed name" and a single detail item with status 500 and the same message.
The final conjunct is the spec's P6 instance: one raising task named x with
message boom next to an all-200 task yields exactly the one error entry and a
failed report whose single item has status 500. -/
theorem claimC2 :
    (∀ tasks : List (String × TaskResult),
      (validateAllResourcesParallel tasks).2 = tasks.flatMap specErrorsOfTask ∧
      (validateAllResourcesParallel tasks).1 = tasks.map specReportOfTask) ∧
    (validateAllResourcesParallel
        [("x", Except.error "boom"), ("y", Except.ok okReport)]).2 =
      ["Failed to validate x: boom"] ∧
    (validateAllResourcesParallel
        [("x", Except.error "boom"), ("y", Except.ok okReport)]).1.head? =
      some { resourceType := some "Failed x",
             detailedHealthCheck :=
               [{ resourceName := some "x", status := some 500,
                  message := some "Failed to validate x: boom" }] } := by
  refine ⟨fun tasks => ?_, by decide, by decide⟩
  unfold validateAllResourcesParallel
  rw [validateAll_foldl tasks ([], [])]
  simp

/-
Spec-side classification, from claim C4's wording.
-/

/-- Effective status of a detail item: the status value, 500 when the status
key is missing. -/
def effStatus (hc : HealthCheckItem) : Int := hc.status.getD 500

/-- Claim C4's healthy bucket: effective status equal to 200. -/
def isHealthyItem (hc : HealthCheckItem) : Bool := effStatus hc == 200

/-- Claim C4's unhealthy bucket: effective status at least 400. -/
def isUnhealthyItem (hc : HealthCheckItem) : Bool := decide (400 ≤ effStatus hc)

/-- Claim C4's warning bucket: everything that is neither healthy nor
unhealthy. -/
def isWarnItem (hc : HealthCheckItem) : Bool :=
  !isHealthyItem hc && !isUnhealthyItem hc

/-- All detail items across all reports, in report order. -/
def allItems (fullReport : List ResourceTypeReport) : List HealthCheckItem :=
  fullReport.flatMap (·.detailedHealthCheck)

/-- The inner classification fold adds, componentwise, the counts of the
three buckets over the item list; the total component is untouched. -/
theorem classify_foldl (items : List HealthCheckItem) :
    ∀ acc : Nat × Nat × Nat × Nat,
      items.foldl classifyStep acc =
        (acc.1, acc.2.1 + items.countP isHealthyItem,
         acc.2.2.1 + items.countP isUnhealthyItem,
         acc.2.2.2 + items.countP isWarnItem) := by
  induction items with
  | nil => intro acc; simp
  | cons hc rest ih =>
    intro acc
    rw [List.foldl_cons, ih]
    simp only [List.countP_cons, classifyStep, isHealthyItem, isUnhealthyItem,
      isWarnItem, effStatus]
    by_cases h200 : hc.status.getD 500 = 200
    · have : ¬ (400 : Int) ≤ hc.status.getD 500 := by omega
      simp [h200, this, Prod.mk.injEq]
      omega
    · by_cases h400 : (400 : Int) ≤ hc.status.getD 500
      · simp [h200, h400, Prod.mk.injEq]
        omega
      · simp [h200, h400, Prod.mk.injEq]
        omega

/-- The summary loop computes the length of the flattened item list and the
three bucket counts. -/
theorem summaryCounts_eq (fullReport : List ResourceTypeReport) :
    summaryCounts fullReport =
      ((allItems fullReport).length,
       (allItems fullReport).countP isHealthyItem,
       (allItems fullReport).countP isUnhealthyItem,
       (allItems fullReport).countP isWarnItem) := by
  unfold summaryCounts
  have key : ∀ acc : Nat × Nat × Nat × Nat,
      fullReport.foldl reportCountStep acc =
        (acc.1 + (allItems fullReport).length,
         acc.2.1 + (allItems fullReport).countP isHealthyItem,
         acc.2.2.1 + (allItems fullReport).countP isUnhealthyItem,
         acc.2.2.2 + (allItems fullReport).countP isWarnItem) := by
    induction fullReport with
    | nil => intro acc; simp [allItems]
    | cons report rest ih =>
      intro acc
      rw [List.foldl_cons, reportCountStep, classify_foldl, ih]
      simp only [allItems, List.flatMap_cons, List.length_append,
        List.countP_append, Prod.mk.injEq]
      omega
  rw [key (0, 0, 0, 0)]
  simp

/-- Every item falls in exactly one bucket, so the bucket counts add to the
item count. -/
theorem bucket_partition (items : List HealthCheckItem) :
    items.countP isHealthyItem + items.countP isUnhealthyItem
      + items.countP isWarnItem = items.length := by
  induction items with
  | nil => simp
  | cons hc rest ih =>
    simp only [List.countP_cons, List.length_cons]
    by_cases h1 : isHealthyItem hc = true
    · have h2 : isUnhealthyItem hc = false := by
        simp only [isHealthyItem, beq_iff_eq] at h1
        simp [isUnhealthyItem]
        omega
      have h3 : isWarnItem hc = false := by simp [isWarnItem, h1]
      simp [h1, h2, h3]
      omega
    · by_cases h2 : isUnhealthyItem hc = true
      · have h3 : isWarnItem hc = false := by simp [isWarnItem, h2]
        simp [h1, h2, h3]
        omega
      · have h3 : isWarnItem hc = true := by
          simp only [Bool.not_eq_true] at h1 h2
          simp [isWarnItem, h1, h2]
        simp [h1, h2, h3]
        omega

/-- C4: generate_enhanced_report classifies every detail item across all
reports into exactly one of the three buckets (healthy, status 200;
unhealthy, status at least 400; warning, everything else), the bucket counts
add to the total item count, and the overall status is UNHEALTHY when some
unhealthy item exists, else WARNING when some warning item exists or the
error list is non-empty, else HEALTHY. -/
theorem claimC4 (healthInput : HealthCheckInput)
    (fullReport : List ResourceTypeReport) (executionId : String)
    (executionTimeMs : Int) (errors : List String) (nowTimestamp : String)
    (debugEnabled : Bool) :
    (generateEnhancedReport healthInput fullReport executionId executionTimeMs
        errors nowTimestamp debugEnabled).summary.healthy =
      (allItems fullReport).countP isHealthyItem ∧
    (generateEnhancedReport healthInput fullReport executionId executionTimeMs
        errors nowTimestamp debugEnabled).summary.unhealthy =
      (allItems fullReport).countP isUnhealthyItem ∧
    (generateEnhancedReport healthInput fullReport executionId executionTimeMs
        errors nowTimestamp debugEnabled).summary.warnings =
      (allItems fullReport).countP isWarnItem ∧
    (generateEnhancedReport healthInput fullReport executionId executionTimeMs
        errors nowTimestamp debugEnabled).summary.totalResources =
      (allItems fullReport).length ∧
    (generateEnhancedReport healthInput fullReport executionId executionTimeMs
          errors nowTimestamp debugEnabled).summary.healthy +
        (generateEnhancedReport healthInput fullReport executionId executionTimeMs
          errors nowTimestamp debugEnabled).summary.unhealthy +
        (generateEnhancedReport healthInput fullReport executionId executionTimeMs
          errors nowTimestamp debugEnabled).summary.warnings =
      (generateEnhancedReport healthInput fullReport executionId executionTimeMs
        errors nowTimestamp debugEnabled).summary.totalResources ∧
    (generateEnhancedReport healthInput fullReport executionId executionTimeMs
        errors nowTimestamp debugEnabled).summary.overallStatus =
      (if (allItems fullReport).any isUnhealthyItem then "UNHEALTHY"
       else if (allItems fullReport).any isWarnItem ∨ errors ≠ [] then "WARNING"
       else "HEALTHY") := by
  have hU : ((allItems fullReport).countP isUnhealthyItem > 0) ↔
      ((allItems fullReport).any isUnhealthyItem = true) := by
    rw [List.any_eq_true]
    exact List.countP_pos_iff
  have hW : ((allItems fullReport).countP isWarnItem > 0) ↔
      ((allItems fullReport).any isWarnItem = true) := by
    rw [List.any_eq_true]
    exact List.countP_pos_iff
  refine ⟨?_, ?_, ?_, ?_, ?_, ?_⟩
  · simp [generateEnhancedReport, summaryCounts_eq]
  · simp [generateEnhancedReport, summaryCounts_eq]
  · simp [generateEnhancedReport, summaryCounts_eq]
  · simp [generateEnhancedReport, summaryCounts_eq]
  · simp only [generateEnhancedReport, summaryCounts_eq]
    exact bucket_partition (allItems fullReport)
  · simp only [generateEnhancedReport, summaryCounts_eq]
    exact if_congr hU rfl (if_congr (or_congr hW Iff.rfl) rfl rfl)

/-- C10: a detail item with no status field at all is classified with the
default status 500: it lands in the unhealthy bucket and in no other bucket,
so its presence in any report forces a positive unhealthy count and the
overall status UNHEALTHY. -/
theorem claimC10 (healthInput : HealthCheckInput)
    (fullReport : List ResourceTypeReport) (executionId : String)
    (executionTimeMs : Int) (errors : List String) (nowTimestamp : String)
    (debugEnabled : Bool) (hc : HealthCheckItem)
    (hmem : hc ∈ allItems fullReport) (hnone : hc.status = none) :
    isUnhealthyItem hc = true ∧ isHealthyItem hc = false ∧
    isWarnItem hc = false ∧
    0 < (generateEnhancedReport healthInput fullReport executionId
        executionTimeMs errors nowTimestamp debugEnabled).summary.unhealthy ∧
    (generateEnhancedReport healthInput fullReport executionId executionTimeMs
        errors nowTimestamp debugEnabled).summary.overallStatus = "UNHEALTHY" := by
  have hu : isUnhealthyItem hc = true := by
    simp [isUnhealthyItem, effStatus, hnone]
  have hh : isHealthyItem hc = false := by
    simp [isHealthyItem, effStatus, hnone]
  have hw : isWarnItem hc = false := by
    simp [isWarnItem, hu]
  have hpos : 0 < (allItems fullReport).countP isUnhealthyItem :=
    List.countP_pos_iff.mpr ⟨hc, hmem, hu⟩
  refine ⟨hu, hh, hw, ?_, ?_⟩
  · simp only [generateEnhancedReport, summaryCounts_eq]
    exact hpos
  · simp only [generateEnhancedReport, summaryCounts_eq]
    exact if_pos hpos

mutual
/-- Resolution does not change a node's structural skeleton. -/
theorem shapeNode_replace (disc : Disc) (ctx : Ctx) :
    ∀ n : Node, shapeNode (replacePlaceholders disc ctx n) = shapeNode n
  | .strVal _ => rfl
  | .intVal _ => rfl
  | .boolVal _ => rfl
  | .nullVal => rfl
  | .arr elems => congrArg Node.arr (shapeList_replace disc ctx elems)
  | .obj fields => congrArg Node.obj (shapeFields_replace disc ctx fields)

/-- Resolution does not change a node sequence's structural skeleton. -/
theorem shapeList_replace (disc : Disc) (ctx : Ctx) :
    ∀ l : NodeList, shapeList (replacePlaceholdersList disc ctx l) = shapeList l
  | .nil => rfl
  | .cons n rest =>
    congrArg₂ NodeList.cons (shapeNode_replace disc ctx n)
      (shapeList_replace disc ctx rest)

/-- Resolution does not change object fields' structural skeleton. -/
theorem shapeFields_replace (disc : Disc) (ctx : Ctx) :
    ∀ fs : NodeFields,
      shapeFields (replacePlaceholdersFields disc ctx fs) = shapeFields fs
  | .nil => rfl
  | .cons k v rest =>
    congrArg₂ (NodeFields.cons k) (shapeNode_replace disc ctx v)
      (shapeFields_replace disc ctx rest)
end

/-- C5: replace_placeholders is structure-preserving for every template
document and every context: the result has the same structural skeleton as
the input, meaning identical object keys in order, identical sequence lengths
and element order, and identical non-string scalar values; only string leaves
may change. -/
theorem claimC5 (disc : Disc) (ctx : Ctx) (d : Node) :
    shapeNode (replacePlaceholders disc ctx d) = shapeNode d :=
  shapeNode_replace disc ctx d

/-- C3: when exactly one of the two conditional options contains the priority
token (either spelling of the lambda-prefix token) and the context holds a
usable prefix value, that option is selected and returned with its simple
tokens substituted; concretely, with CallCenterApiName mycc and LambdaPrefix
myorg, the spec's P3 conditional resolves to myorg-Function, and with the
prefix absent or empty it resolves to mycc-Function. -/
theorem claimC3 :
    (∀ (disc : Disc) (ctx : Ctx) (option1 option2 : String),
        (containsStr option1 "$\x7bLambdaPrefix\x7d"
          || containsStr option1 "$\x7blambdaPrefix\x7d") = true →
        (containsStr option2 "$\x7bLambdaPrefix\x7d"
          || containsStr option2 "$\x7blambdaPrefix\x7d") = false →
        (validPfx (pfxCapFirst ctx)).isSome = true →
        resolveConditionalOptions disc ctx option1 option2 =
          replacePlaceholdersInString disc ctx option1) ∧
    (∀ (disc : Disc) (ctx : Ctx) (option1 option2 : String),
        (containsStr option1 "$\x7bLambdaPrefix\x7d"
          || containsStr option1 "$\x7blambdaPrefix\x7d") = false →
        (containsStr option2 "$\x7bLambdaPrefix\x7d"
          || containsStr option2 "$\x7blambdaPrefix\x7d") = true →
        (validPfx (pfxCapFirst ctx)).isSome = true →
        resolveConditionalOptions disc ctx option1 option2 =
          replacePlaceholdersInString disc ctx option2) ∧
    resolveStr discNone ctxBoth
        "$\x7bCallCenterApiName\x7d-Function|$\x7bLambdaPrefix\x7d-Function" =
      "myorg-Function" ∧
    resolveStr discNone ctxNoPfx
        "$\x7bCallCenterApiName\x7d-Function|$\x7bLambdaPrefix\x7d-Function" =
      "mycc-Function" ∧
    resolveStr discNone ctxEmptyPfx
        "$\x7bCallCenterApiName\x7d-Function|$\x7bLambdaPrefix\x7d-Function" =
      "mycc-Function" := by
  refine ⟨?_, ?_, by decide, by decide, by decide⟩
  · intro disc ctx option1 option2 h1 _h2 hp
    simp only [resolveConditionalOptions]
    rw [h1, hp]
    simp
  · intro disc ctx option1 option2 h1 h2 hp
    simp only [resolveConditionalOptions]
    rw [h1, h2, hp]
    simp

/-- Witness for C3's general priority rule at a concrete input. -/
theorem claimC3_witness :
    resolveConditionalOptions discNone ctxBoth
        "$\x7bLambdaPrefix\x7d-Function" "$\x7bCallCenterApiName\x7d-Function" =
      replacePlaceholdersInString discNone ctxBoth "$\x7bLambdaPrefix\x7d-Function" :=
  claimC3.1 discNone ctxBoth
    "$\x7bLambdaPrefix\x7d-Function" "$\x7bCallCenterApiName\x7d-Function"
    (by decide) (by decide) (by decide)

/-- Counterexample to C7 as stated: with a usable prefix value p, the
priority rule returns option1's dash-prefixed resolution even though
option2's resolution does not start with a dash. -/
theorem claimC7_counterexample :
    resolveConditionalOptions discNone ctxPfxOnly "-$\x7bLambdaPrefix\x7d" "ok" =
      "-p" ∧
    startsWithStr
        (resolveConditionalOptions discNone ctxPfxOnly "-$\x7bLambdaPrefix\x7d" "ok")
        "-" = true ∧
    startsWithStr (replacePlaceholdersInString discNone ctxPfxOnly "ok") "-" =
      false :=
  ⟨by decide, by decide, by decide⟩

/-- C7 amended: whenever the lambda-prefix priority rule does not fire
(neither option carries the priority token with a usable prefix value),
conditional resolution never returns a string starting with the separator
dash if either option's full resolution is dash-free. -/
theorem claimC7 (disc : Disc) (ctx : Ctx) (option1 option2 : String)
    (hFire : (((containsStr option1 "$\x7bLambdaPrefix\x7d"
          || containsStr option1 "$\x7blambdaPrefix\x7d")
        || (containsStr option2 "$\x7bLambdaPrefix\x7d"
          || containsStr option2 "$\x7blambdaPrefix\x7d"))
        && (validPfx (pfxCapFirst ctx)).isSome) = false)
    (hAvail :
      startsWithStr (replacePlaceholdersInString disc ctx option1) "-" = false ∨
      startsWithStr (replacePlaceholdersInString disc ctx option2) "-" = false) :
    startsWithStr (resolveConditionalOptions disc ctx option1 option2) "-" =
      false := by
  have h1 : ((containsStr option1 "$\x7bLambdaPrefix\x7d"
        || containsStr option1 "$\x7blambdaPrefix\x7d")
      && (validPfx (pfxCapFirst ctx)).isSome) = false := by
    rcases Bool.and_eq_false_iff.mp hFire with h | h
    · rcases Bool.or_eq_false_iff.mp h with ⟨ha, _⟩
      simp [ha]
    · simp [h]
  have h2 : ((containsStr option2 "$\x7bLambdaPrefix\x7d"
        || containsStr option2 "$\x7blambdaPrefix\x7d")
      && (validPfx (pfxCapFirst ctx)).isSome) = false := by
    rcases Bool.and_eq_false_iff.mp hFire with h | h
    · rcases Bool.or_eq_false_iff.mp h with ⟨_, hb⟩
      simp [hb]
    · simp [h]
  simp only [resolveConditionalOptions]
  rw [h1, h2]
  simp only [Bool.false_eq_true, if_false]
  split_ifs with hA hB hC hD hE <;>
    simp_all [Bool.and_eq_true, Bool.not_eq_true']

/-- Witness for C7's amended dash guard at a concrete input. -/
theorem claimC7_witness :
    startsWithStr (resolveConditionalOptions discNone ctxNone "x" "y") "-" =
      false :=
  claimC7 discNone ctxNone "x" "y" (by decide) (Or.inl (by decide))

/-- breakOnBrace splits exactly at the first closing brace. -/
theorem breakOnBrace_append (name tail : List Char)
    (h : ∀ c ∈ name, c ≠ '\x7d') :
    breakOnBrace (name ++ '\x7d' :: tail) = some (name, tail) := by
  induction name with
  | nil => simp [breakOnBrace]
  | cons c rest ih =>
    have hc : c ≠ '\x7d' := h c (List.mem_cons_self c rest)
    simp only [List.cons_append, breakOnBrace, if_neg hc, List.append_eq]
    rw [ih (fun x hx => h x (List.mem_cons_of_mem c hx))]

/-- Without a separator bar, the conditional pattern cannot match at the
head. -/
theorem condMatchAtHead_eq_none (cs : List Char) (h : '|' ∉ cs) :
    condMatchAtHead cs = none := by
  simp only [condMatchAtHead]
  by_cases ha : (cs.takeWhile isOptChar).isEmpty
  · simp [ha]
  · simp only [ha, Bool.false_eq_true, if_false]
    cases hd : cs.drop (cs.takeWhile isOptChar).length with
    | nil => simp
    | cons x xs =>
      have hx : x ∈ cs := by
        have : x ∈ cs.drop (cs.takeWhile isOptChar).length := by
          rw [hd]; exact List.mem_cons_self x xs
        exact List.mem_of_mem_drop this
      have hxbar : x ≠ '|' := fun he => h (he ▸ hx)
      split
      · rename_i rest2 heq
        injection heq with h1 _
        exact absurd h1 hxbar
      · rfl

/-- Without a separator bar, the conditional scan leaves the input
unchanged, for every fuel value. -/
theorem condScanFuel_no_bar (disc : Disc) (ctx : Ctx) :
    ∀ (f : Nat) (cs : List Char), '|' ∉ cs → condScanFuel disc ctx f cs = cs := by
  intro f
  induction f with
  | zero => intro cs _; rfl
  | succ f ih =>
    intro cs h
    cases cs with
    | nil => rfl
    | cons c rest =>
      simp only [condScanFuel, condMatchAtHead_eq_none (c :: rest) h]
      rw [ih rest (fun hm => h (List.mem_cons_of_mem c hm))]

/-- Without a usable prefix, fix_multiorg_role_references is the identity. -/
theorem fixMultiorg_no_pfx (ctx : Ctx) (t : String)
    (h : validPfx (pfxLowFirst ctx) = none) :
    fixMultiorgRoleReferences ctx t = t := by
  unfold fixMultiorgRoleReferences
  rw [h]

/-- Without a usable prefix, fix_custom_resource_outputs is the identity. -/
theorem fixCustom_no_pfx (disc : Disc) (ctx : Ctx) (t : String)
    (h : validPfx (pfxLowFirst ctx) = none) :
    fixCustomResourceOutputs disc ctx t = t := by
  unfold fixCustomResourceOutputs
  rw [h]

/-- Without a usable prefix, clean_duplicate_prefixes is the identity. -/
theorem clean_no_pfx (ctx : Ctx) (t : String)
    (h : validPfx (pfxLowFirst ctx) = none) :
    cleanDuplicatePrefixes ctx t = t := by
  unfold cleanDuplicatePrefixes
  rw [h]

/-- The substitution scan exhausts no fuel on the empty list. -/
theorem substFuel_nil (ctx : Ctx) (f : Nat) : substFuel ctx f [] = [] := by
  cases f <;> rfl

/-- The substitution scan on a single whole token: it is replaced by the
context value when the name is bound, and is left verbatim otherwise. -/
theorem substFuel_single (ctx : Ctx) (nm : List Char) (f : Nat)
    (hne : nm ≠ []) (hbr : ∀ c ∈ nm, c ≠ '\x7d') :
    substFuel ctx (Nat.succ f) ('$' :: '\x7b' :: (nm ++ ['\x7d'])) =
      (match ctx (String.mk nm) with
       | some v => v.toList
       | none => '$' :: '\x7b' :: (nm ++ ['\x7d'])) := by
  have hbreak : breakOnBrace (nm ++ ['\x7d']) = some (nm, []) :=
    breakOnBrace_append nm [] hbr
  simp only [substFuel, hbreak]
  rw [if_neg (by simpa [List.isEmpty_iff] using hne)]
  cases hctx : ctx (String.mk nm) with
  | some v => simp [substFuel_nil]
  | none => simp [substFuel_nil]

/-- Rebuilding a string from its character list gives the string back. -/
theorem mk_toList (s : String) : String.mk s.toList = s := by
  cases s
  rfl

/-- Counterexample to C6 as stated: with a usable lambda prefix p in the
context, an unresolved token does not remain literally in the output: the
duplicate-prefix cleanup pass rewrites the token text p-p-x to p-x even
though the name p-p-x is absent from the context. -/
theorem claimC6_counterexample :
    resolveStr discNone ctxPfxOnly "$\x7bp-p-x\x7d" = "$\x7bp-x\x7d" ∧
    ctxPfxOnly "p-p-x" = none ∧
    ("$\x7bp-x\x7d" : String) ≠ "$\x7bp-p-x\x7d" :=
  ⟨by decide, by decide, by decide⟩

/-- C6 amended: the resolver never fails on a token, and in any context
without a usable lambda-prefix value (with a usable prefix the
duplicate-prefix cleanup may rewrite token text, as the counterexample
shows) a whole-string simple token whose name avoids the brace and bar
metacharacters is replaced by its context value when the name is bound and
remains verbatim when it is not; the spec's P2 examples follow
concretely. -/
theorem claimC6 :
    (∀ (disc : Disc) (ctx : Ctx) (name : String),
        name ≠ "" →
        (∀ c ∈ name.toList, c ≠ '\x7d' ∧ c ≠ '|') →
        validPfx (pfxLowFirst ctx) = none →
        resolveStr disc ctx ("$\x7b" ++ name ++ "\x7d") =
          (ctx name).getD ("$\x7b" ++ name ++ "\x7d")) ∧
    resolveStr discNone ctxHello "Hello $\x7bname\x7d" = "Hello World" ∧
    resolveStr discNone ctxNone "Hello $\x7bx\x7d" = "Hello $\x7bx\x7d" := by
  refine ⟨?_, by decide, by decide⟩
  intro disc ctx name hne hchars hpfx
  have hmkname : String.mk name.toList = name := mk_toList name
  have hlist : ("$\x7b" ++ name ++ "\x7d").toList
      = '$' :: '\x7b' :: (name.toList ++ ['\x7d']) := by
    cases name
    rfl
  have hne' : name.toList ≠ [] := by
    intro h0
    apply hne
    cases name with
    | mk l =>
      have hl : l = [] := h0
      subst hl
      rfl
  have hbr : ∀ c ∈ name.toList, c ≠ '\x7d' := fun c h => (hchars c h).1
  have hnobar : '|' ∉ ("$\x7b" ++ name ++ "\x7d").toList := by
    rw [hlist]
    intro hmem
    simp only [List.mem_cons, List.mem_append, List.mem_singleton] at hmem
    rcases hmem with h | h | h | h
    · exact absurd h (by decide)
    · exact absurd h (by decide)
    · exact (hchars '|' h).2 rfl
    · exact absurd h (by decide)
  have hcond : resolveConditionalPlaceholder disc ctx ("$\x7b" ++ name ++ "\x7d")
      = "$\x7b" ++ name ++ "\x7d" := by
    unfold resolveConditionalPlaceholder
    rw [condScanFuel_no_bar disc ctx _ _ hnobar]
    exact mk_toList _
  have hsub : substPlaceholdersIn ctx ("$\x7b" ++ name ++ "\x7d")
      = (ctx name).getD ("$\x7b" ++ name ++ "\x7d") := by
    unfold substPlaceholdersIn
    rw [hlist]
    rw [show ('$' :: '\x7b' :: (name.toList ++ ['\x7d'])).length
        = Nat.succ ((name.toList ++ ['\x7d']).length + 1) from rfl]
    rw [substFuel_single ctx name.toList _ hne' hbr]
    rw [hmkname]
    cases hctx : ctx name with
    | some v => simp [mk_toList]
    | none =>
      simp only [Option.getD_none]
      rw [← hlist]
      exact mk_toList _
  unfold resolveStr
  rw [hcond]
  unfold replacePlaceholdersInString
  rw [fixMultiorg_no_pfx _ _ hpfx, fixCustom_no_pfx _ _ _ hpfx, hsub,
    clean_no_pfx _ _ hpfx]

/-- Witness for C6's general token law at a concrete input. -/
theorem claimC6_witness :
    resolveStr discNone ctxNone "$\x7bx\x7d" = (ctxNone "x").getD "$\x7bx\x7d" :=
  claimC6.1 discNone ctxNone "x" (by decide) (by decide) (by decide)

/-- Spec-side CSV row from claim C8's wording as amended: all four fields
double-quote wrapped, name and type defaulting to Unknown, the binary
HEALTHY/UNHEALTHY status label, and the message defaulting to empty with its
internal double quotes doubled (only the message field is escaped). -/
def specCsvRow (rtr : ResourceTypeReport) (hc : HealthCheckItem) : String :=
  "\"" ++ hc.resourceName.getD "Unknown" ++ "\",\""
    ++ rtr.resourceType.getD "Unknown" ++ "\",\""
    ++ (if hc.status == some 200 then "HEALTHY" else "UNHEALTHY") ++ "\",\""
    ++ replaceAllStr (hc.message.getD "") "\"" "\"\"" ++ "\""

/-- The nested CSV line loop appends exactly one spec row per detail item, in
report order. -/
theorem csvLines_foldl (results : List ResourceTypeReport) :
    ∀ lines : List String,
      results.foldl
        (fun lines rtr =>
          rtr.detailedHealthCheck.foldl
            (fun lines hc => lines ++ [csvRow rtr.resourceType hc])
            lines)
        lines
      = lines ++ results.flatMap
          (fun rtr => rtr.detailedHealthCheck.map (specCsvRow rtr)) := by
  have inner : ∀ (rtr : ResourceTypeReport) (items : List HealthCheckItem)
      (lines : List String),
      items.foldl (fun lines hc => lines ++ [csvRow rtr.resourceType hc]) lines
        = lines ++ items.map (specCsvRow rtr) := by
    intro rtr items
    induction items with
    | nil => intro lines; simp
    | cons hc rest ih =>
      intro lines
      rw [List.foldl_cons, ih]
      simp [csvRow, specCsvRow, List.append_assoc]
  induction results with
  | nil => intro lines; simp
  | cons rtr rest ih =>
    intro lines
    rw [List.foldl_cons, inner rtr, ih]
    simp [List.append_assoc]

/-- Counterexample to C8 as stated: a double quote inside ResourceName is
emitted unescaped, so not every field has its quotes doubled. -/
theorem claimC8_counterexample :
    generateCsvReport
        { executionId := "e", timestamp := "t", version := "v",
          executionTimeMs := none, inputParameters := hiFixture,
          summary := { overallStatus := "HEALTHY", totalResources := 1,
                       healthy := 1, unhealthy := 0, warnings := 0,
                       errorCount := 0 },
          detailedResults :=
            [{ resourceType := some "T",
               detailedHealthCheck :=
                 [{ resourceName := some "a\"b", status := some 200,
                    message := some "" }] }],
          errors := [] }
      = "ResourceName,ResourceType,Status,Message\n\"a\"b\",\"T\",\"HEALTHY\",\"\"" ∧
    "ResourceName,ResourceType,Status,Message\n\"a\"b\",\"T\",\"HEALTHY\",\"\""
      ≠ "ResourceName,ResourceType,Status,Message\n\"a\"\"b\",\"T\",\"HEALTHY\",\"\"" :=
  ⟨by decide, by decide⟩

/-- C8 amended: generate_csv_report emits the header row followed by one row
per detail item in which every field is double-quote wrapped, the status
column is HEALTHY exactly for status 200 and UNHEALTHY otherwise, missing
name, type and message default to Unknown, Unknown and the empty string, and
the message field (and only the message field) has its internal double
quotes doubled. -/
theorem claimC8 (report : EnhancedReport) :
    generateCsvReport report =
      String.intercalate "\n"
        ("ResourceName,ResourceType,Status,Message" ::
          report.detailedResults.flatMap
            (fun rtr => rtr.detailedHealthCheck.map (specCsvRow rtr))) := by
  unfold generateCsvReport
  rw [csvLines_foldl]
  rfl

/-- Counterexample to C9 as stated: the aggregator's output depends on the
wall clock (two runs with identical arguments but different clock readings
differ), and the resolver's output depends on the stream-discovery
collaborator's network answers (two oracles give different resolutions of
the same document in the same context). -/
theorem claimC9_counterexample :
    generateEnhancedReport hiFixture [] "e" 0 [] "2024-01-01T00:00:00" false ≠
      generateEnhancedReport hiFixture [] "e" 0 [] "2024-01-02T00:00:00" false ∧
    replacePlaceholders discA ctxDiscovery (Node.strVal ctrStreamKey) ≠
      replacePlaceholders discB ctxDiscovery (Node.strVal ctrStreamKey) := by
  constructor
  · intro h
    have := congrArg EnhancedReport.timestamp h
    exact absurd this (by decide)
  · intro h
    have h' : Node.strVal (resolveStr discA ctxDiscovery ctrStreamKey)
        = Node.strVal (resolveStr discB ctxDiscovery ctrStreamKey) := h
    have h2 : resolveStr discA ctxDiscovery ctrStreamKey
        = resolveStr discB ctxDiscovery ctrStreamKey := by
      injection h'
    exact absurd h2 (by decide)

/-- C9 amended: the resolver is deterministic once the stream-discovery
collaborator's answers are fixed, and fix_custom_resource_outputs never
consults discovery when the text does not mention a stream-discovery
custom-resource output; the aggregator's summary, detailed results and error
list are pure functions of its arguments, while its execution metadata
depends on the clock reading and the debug flag. -/
theorem claimC9 :
    (∀ (healthInput : HealthCheckInput) (fullReport : List ResourceTypeReport)
        (executionId : String) (executionTimeMs : Int) (errors : List String)
        (now1 now2 : String) (dbg1 dbg2 : Bool),
      (generateEnhancedReport healthInput fullReport executionId
          executionTimeMs errors now1 dbg1).summary =
        (generateEnhancedReport healthInput fullReport executionId
          executionTimeMs errors now2 dbg2).summary ∧
      (generateEnhancedReport healthInput fullReport executionId
          executionTimeMs errors now1 dbg1).detailedResults =
        (generateEnhancedReport healthInput fullReport executionId
          executionTimeMs errors now2 dbg2).detailedResults ∧
      (generateEnhancedReport healthInput fullReport executionId
          executionTimeMs errors now1 dbg1).errors =
        (generateEnhancedReport healthInput fullReport executionId
          executionTimeMs errors now2 dbg2).errors) ∧
    (∀ (disc1 disc2 : Disc) (ctx : Ctx) (text : String),
      (containsStr text ctrStreamKey || containsStr text contactLensStreamKey)
          = false →
      fixCustomResourceOutputs disc1 ctx text =
        fixCustomResourceOutputs disc2 ctx text) := by
  constructor
  · intro healthInput fullReport executionId executionTimeMs errors n1 n2 d1 d2
    exact ⟨rfl, rfl, rfl⟩
  · intro disc1 disc2 ctx text h
    unfold fixCustomResourceOutputs
    cases validPfx (pfxLowFirst ctx) with
    | none => rfl
    | some p =>
      simp only [h, Bool.false_and, Bool.and_self, if_neg, Bool.false_eq_true,
        if_false]

/-- Witness for C9's amended discovery-independence at a concrete input. -/
theorem claimC9_witness :
    fixCustomResourceOutputs discA ctxDiscovery "plain text" =
      fixCustomResourceOutputs discB ctxDiscovery "plain text" :=
  claimC9.2 discA discB ctxDiscovery "plain text" (by decide)

/-- Witness for C10 at a concrete report whose single item has no status. -/
theorem claimC10_witness :
    (generateEnhancedReport hiFixture
        [{ resourceType := some "T",
           detailedHealthCheck :=
             [{ resourceName := some "R", status := none,
                message := some "m" }] }]
        "e" 0 [] "t" false).summary.overallStatus = "UNHEALTHY" :=
  (claimC10 hiFixture
    [{ resourceType := some "T",
       detailedHealthCheck :=
         [{ resourceName := some "R", status := none, message := some "m" }] }]
    "e" 0 [] "t" false
    { resourceName := some "R", status := none, message := some "m" }
    (by decide) rfl).2.2.2.2

end HealthCheck
